import Mathlib

/-!
Verification development for the version-tagging GitHub action (src/index.ts).

The pure fragments of the program (the node-semver operations it calls, the
branch-classification table, the tag-history scan and the next-version
computation) are embedded as executable Lean functions, and the effectful
`run` is embedded as a pure function from the triggering event plus an
environment (the responses of the external collaborators: the PR lookup,
the tag listing, the release-creation status) to a record of the externally
visible effects the run performs.

The semver functions follow node-semver's strict grammar and its `inc`
algorithm.  The 256-character length cap and the JS `MAX_SAFE_INTEGER`
bound on numeric components are not modelled (numbers are unbounded `Nat`);
no tag name in any statement below comes near those limits.
-/

namespace Tagging

/-- Does the first character list start with the second one?  This models an
anchored-at-start JS regular-expression test `/^pat.*/.test(s)` for a literal
pattern `pat` (the trailing `.*` may match the empty string, so the test
succeeds exactly on strings that start with the literal). -/
def charsStartWith : List Char → List Char → Bool
  | _, [] => true
  | [], _ :: _ => false
  | a :: as, b :: bs => a == b && charsStartWith as bs

/-- Whether `s` starts with `p`. -/
def strStarts (s p : String) : Bool :=
  charsStartWith s.data p.data

/-- Does the haystack contain the needle as a contiguous substring?
Models JS `String.prototype.includes`. -/
def charsContain : List Char → List Char → Bool
  | [], needle => charsStartWith [] needle
  | a :: as, needle => charsStartWith (a :: as) needle || charsContain as needle

/-- Substring test on strings; models `hay.includes(needle)`. -/
def strContains (hay needle : String) : Bool :=
  charsContain hay.data needle.data

/-- Replace the first occurrence of character `c` by `r`; models JS
`s.replace(c, r)` with a one-character string search value, which replaces
only the first occurrence. -/
def replaceFirstChar : List Char → Char → Char → List Char
  | [], _, _ => []
  | a :: as, c, r => if a == c then r :: as else a :: replaceFirstChar as c r

/-- String version of `replaceFirstChar`. -/
def replaceFirst (s : String) (c r : Char) : String :=
  String.mk (replaceFirstChar s.data c r)

/-- Split a character list at every occurrence of `c` (like
`String.prototype.split` with a one-character separator). -/
def splitOnChar (c : Char) : List Char → List (List Char)
  | [] => [[]]
  | a :: as =>
    if a == c then [] :: splitOnChar c as
    else
      match splitOnChar c as with
      | [] => [[a]]
      | g :: gs => (a :: g) :: gs

/-- Split at the first occurrence of `c`: returns the part before it and,
when `c` occurs, the part after it. -/
def splitFirst (c : Char) : List Char → List Char × Option (List Char)
  | [] => ([], none)
  | a :: as =>
    if a == c then ([], some as)
    else
      let r := splitFirst c as
      (a :: r.1, r.2)

/-- Decimal value of a digit list (callers guarantee the list holds digits). -/
def digitsToNat (cs : List Char) : Nat :=
  cs.foldl (fun n c => n * 10 + (c.toNat - 48)) 0

/-- A semver numeric component: `0|[1-9]\d*` with maximal munch, returning
the remainder of the input.  Rejects empty digit runs and leading zeros. -/
def parseNum (cs : List Char) : Option (Nat × List Char) :=
  let ds := cs.takeWhile Char.isDigit
  let rest := cs.dropWhile Char.isDigit
  match ds with
  | [] => none
  | d :: tl =>
    if d == '0' && !tl.isEmpty then none else some (digitsToNat ds, rest)

/-- The `major.minor.patch` core of a semver string, with the remainder. -/
def parseMain (cs : List Char) : Option (Nat × Nat × Nat × List Char) :=
  match parseNum cs with
  | none => none
  | some (ma, r1) =>
    match r1 with
    | '.' :: r2 =>
      match parseNum r2 with
      | none => none
      | some (mi, r3) =>
        match r3 with
        | '.' :: r4 =>
          match parseNum r4 with
          | none => none
          | some (pa, r5) => some (ma, mi, pa, r5)
        | _ => none
    | _ => none

/-- A pre-release identifier: numeric (`0|[1-9]\d*`, stored as a number) or
alphanumeric-with-hyphens containing at least one non-digit (stored as a
string), exactly as node-semver's strict grammar classifies them. -/
inductive PreId where
  | num (n : Nat)
  | str (s : String)
deriving DecidableEq

/-- A character allowed in pre-release and build identifiers: `[0-9A-Za-z-]`. -/
def isIdentChar (c : Char) : Bool :=
  c.isDigit || c.isAlpha || c == '-'

/-- Parse one pre-release identifier. -/
def preIdOf (cs : List Char) : Option PreId :=
  if cs.isEmpty then none
  else if !(cs.all isIdentChar) then none
  else if cs.all Char.isDigit then
    match cs with
    | '0' :: _ :: _ => none
    | _ => some (PreId.num (digitsToNat cs))
  else some (PreId.str (String.mk cs))

/-- Parse one build identifier: `[0-9A-Za-z-]+` (leading zeros allowed). -/
def buildIdOf (cs : List Char) : Option String :=
  if cs.isEmpty then none
  else if cs.all isIdentChar then some (String.mk cs)
  else none

/-- A parsed semantic version, as node-semver's `SemVer` object stores it. -/
structure SemVer where
  major : Nat
  minor : Nat
  patch : Nat
  prerelease : List PreId
  build : List String
deriving DecidableEq

/-- Strict parse of a version string, per node-semver's anchored `FULL`
regular expression `^v?MAIN(-PRE)?(+BUILD)?$`. -/
def semverParse (s : String) : Option SemVer :=
  let cs :=
    match s.data with
    | 'v' :: rest => rest
    | l => l
  match parseMain cs with
  | none => none
  | some (ma, mi, pa, rest) =>
    match rest with
    | [] => some ⟨ma, mi, pa, [], []⟩
    | '-' :: r =>
      match splitFirst '+' r with
      | (p, none) =>
        ((splitOnChar '.' p).mapM preIdOf).map (fun pre => ⟨ma, mi, pa, pre, []⟩)
      | (p, some b) =>
        match (splitOnChar '.' p).mapM preIdOf, (splitOnChar '.' b).mapM buildIdOf with
        | some pre, some bd => some ⟨ma, mi, pa, pre, bd⟩
        | _, _ => none
    | '+' :: r =>
      ((splitOnChar '.' r).mapM buildIdOf).map (fun bd => ⟨ma, mi, pa, [], bd⟩)
    | _ => none

/-- Render one pre-release identifier. -/
def PreId.render : PreId → String
  | .num n => Nat.repr n
  | .str s => s

/-- Join with dots, like JS `Array.prototype.join('.')`. -/
def dotJoin : List String → String
  | [] => ""
  | [x] => x
  | x :: y :: xs => x ++ "." ++ dotJoin (y :: xs)

/-- node-semver's `version` property / `format()`: the canonical rendering,
which omits build metadata. -/
def SemVer.format (v : SemVer) : String :=
  Nat.repr v.major ++ "." ++ Nat.repr v.minor ++ "." ++ Nat.repr v.patch ++
    (if v.prerelease = [] then "" else "-" ++ dotJoin (v.prerelease.map PreId.render))

/-- `semver.valid`: the canonical rendering of a parseable version, else null. -/
def semverValid (s : String) : Option String :=
  (semverParse s).map SemVer.format

/-- `semver.prerelease`: the pre-release components when the string parses
and they are non-empty, else null. -/
def semverPrerelease (s : String) : Option (List PreId) :=
  match semverParse s with
  | none => none
  | some v => if v.prerelease = [] then none else some v.prerelease

/-- The release types node-semver's `inc` accepts (anything else throws,
which the `semver.inc` wrapper turns into null). -/
inductive Rel where
  | major
  | minor
  | patch
  | premajor
  | preminor
  | prepatch
  | prerelease
  | pre
deriving DecidableEq

/-- Map the release-type string to a `Rel`, none when it is not a release
type (node's `inc` then throws and the wrapper returns null). -/
def Rel.ofString (s : String) : Option Rel :=
  if s = "major" then some .major
  else if s = "minor" then some .minor
  else if s = "patch" then some .patch
  else if s = "premajor" then some .premajor
  else if s = "preminor" then some .preminor
  else if s = "prepatch" then some .prepatch
  else if s = "prerelease" then some .prerelease
  else if s = "pre" then some .pre
  else none

/-- Increment the last numeric pre-release component, from the right; none
when the list has no numeric component (node's backwards while loop). -/
def incLastNumericAux : List PreId → Option (List PreId)
  | [] => none
  | a :: as =>
    match incLastNumericAux as with
    | some bs => some (a :: bs)
    | none =>
      match a with
      | .num n => some (.num (n + 1) :: as)
      | .str _ => none

/-- node's numeric-suffix bump on a non-empty pre-release list: increment the
last numeric component, or append `0` when there is none. -/
def incLastNumeric (l : List PreId) : List PreId :=
  (incLastNumericAux l).getD (l ++ [.num 0])

/-- The first half of node's `inc('pre')`: `[0]` on an empty pre-release
list, else the numeric-suffix bump. -/
def SemVer.preStep (v : SemVer) : SemVer :=
  if v.prerelease = [] then { v with prerelease := [.num 0] }
  else { v with prerelease := incLastNumeric v.prerelease }

/-- The identifier half of node's `inc('pre', identifier)`: keep the bumped
list only when its head is the identifier and the next component is numeric,
else restart at `[identifier, 0]`. -/
def applyId (pre : List PreId) (id : String) : List PreId :=
  match pre with
  | .str s :: .num n :: rest =>
    if s = id then .str s :: .num n :: rest else [.str id, .num 0]
  | _ => [.str id, .num 0]

/-- node's `inc('pre', identifier)` (identifier optional). -/
def SemVer.incPreWith (v : SemVer) (id : Option String) : SemVer :=
  let w := v.preStep
  match id with
  | none => w
  | some i => { w with prerelease := applyId w.prerelease i }

/-- node-semver's `SemVer.inc` switch, one case per release type. -/
def SemVer.incRel (v : SemVer) (r : Rel) (id : Option String) : SemVer :=
  match r with
  | .major =>
    { v with
      major := if v.minor ≠ 0 ∨ v.patch ≠ 0 ∨ v.prerelease = [] then v.major + 1 else v.major,
      minor := 0, patch := 0, prerelease := [] }
  | .minor =>
    { v with
      minor := if v.patch ≠ 0 ∨ v.prerelease = [] then v.minor + 1 else v.minor,
      patch := 0, prerelease := [] }
  | .patch =>
    { v with
      patch := if v.prerelease = [] then v.patch + 1 else v.patch,
      prerelease := [] }
  | .premajor =>
    SemVer.incPreWith { v with major := v.major + 1, minor := 0, patch := 0, prerelease := [] } id
  | .preminor =>
    SemVer.incPreWith { v with minor := v.minor + 1, patch := 0, prerelease := [] } id
  | .prepatch =>
    SemVer.incPreWith { v with patch := v.patch + 1, prerelease := [] } id
  | .prerelease =>
    SemVer.incPreWith (if v.prerelease = [] then { v with patch := v.patch + 1 } else v) id
  | .pre => SemVer.incPreWith v id

/-- `semver.inc(version, release, identifier)`: null when the version does
not parse or the release type is unknown, else the canonical rendering of
the incremented version. -/
def semverInc (s rel : String) (id : Option String) : Option String :=
  match semverParse s, Rel.ofString rel with
  | some v, some r => some (SemVer.format (v.incRel r id))
  | _, _ => none

/-- The bump kinds of the action's branch table. -/
inductive Bump where
  | patch
  | minor
  | major
  | chore
deriving DecidableEq

/-- The string the source interpolates for each bump kind. -/
def Bump.toStr : Bump → String
  | .patch => "patch"
  | .minor => "minor"
  | .major => "major"
  | .chore => "chore"

/-- One entry of the `branchTypes` table.  `pat` is the literal behind the
anchored pattern `^pat.*`; `RegExp.test` with such a pattern holds exactly
on strings starting with the literal (see `strStarts`). -/
structure BranchType where
  pat : String
  bump : Bump
  label : String
deriving DecidableEq

/-- The fixed ordered rule table of the source. -/
def branchTypes : List BranchType :=
  [⟨"fix/", .patch, "fix"⟩,
   ⟨"feature/", .minor, "feature"⟩,
   ⟨"release/", .major, "release"⟩,
   ⟨"chore/", .chore, "chore"⟩]

/-- `branchTypes.find(branchPat => branchPat.pattern.test(branch))`. -/
def classify (branch : String) : Option BranchType :=
  branchTypes.find? (fun bt => strStarts branch bt.pat)

/-- Source line 102:
`tags.data.filter(tag => !semver.prerelease(tag.name) && semver.valid(tag.name) === tag.name)`. -/
def fullReleases (tags : List String) : List String :=
  tags.filter (fun t => (semverPrerelease t).isNone && decide (semverValid t = some t))

/-- Source lines 103-105:
`firstValid = fullReleases.find(tag => semver.valid(tag.name))`;
`lastTag = firstValid ? firstValid.name : '0.0.0'`. -/
def lastTagOf (tags : List String) : String :=
  match (fullReleases tags).find? (fun t => (semverValid t).isSome) with
  | some t => t
  | none => "0.0.0"

/-- Source line 108: the RC identifier of a branch, the literal `rc-`
followed by the branch name with its first slash replaced by a hyphen. -/
def rcNameOf (branch : String) : String :=
  "rc-" ++ replaceFirst branch '/' '-'

/-- The new-tag computation of `run` (source lines 102-119); `bumpStr` is
the string `` `${prefix}${pattern.bump}` `` the source builds. -/
def resolveTag (tags : List String) (branch bumpStr : String) (preRelease : Bool) : Option String :=
  if preRelease then
    match tags.filter (fun t => strContains t (rcNameOf branch)) with
    | [] => semverInc (lastTagOf tags) bumpStr (some (rcNameOf branch))
    | r :: _ => semverInc r "prerelease" none
  else semverInc (lastTagOf tags) bumpStr none

/-- The fields of the pull-request payload that `run` reads. -/
structure PullRequest where
  number : Int
  title : String
  body : String
  draft : Bool
  merged : Bool
  headRef : String
  baseRef : String
deriving DecidableEq

/-- The external collaborators' responses, read-only during one run:
the PR lookup behind `octokit.pulls.get`, the first page of tag names
behind `octokit.repos.listTags`, and the status of `createRelease`. -/
structure Env where
  getPull : Int → PullRequest
  tags : List String
  releaseStatus : Int

/-- The `createRelease` request the run shapes (source lines 122-131). -/
structure ReleaseRequest where
  tagName : Option String
  name : String
  body : String
  draft : Bool
  prerelease : Bool
  targetCommitish : String
deriving DecidableEq

/-- The externally visible effects of one run. -/
structure RunEffects where
  labelsAdded : List String
  comments : List String
  listedTags : Bool
  releaseReq : Option ReleaseRequest
  outputs : Option (Option String × Bool)
  failedMsg : Option String
  warnings : List String
deriving DecidableEq

/-- A run that performed no effect. -/
def emptyEffects : RunEffects :=
  ⟨[], [], false, none, none, none, []⟩

/-- Rendering of the (possibly null) new tag inside the comment template. -/
def tagStr : Option String → String
  | none => "null"
  | some s => s

/-- Source lines 132-146: fail when the release response status is not 201
and the PR number is positive; otherwise set the outputs and post the
success comment. -/
def finishRelease (status prNumber : Int) (req : ReleaseRequest)
    (newTag : Option String) (pre : Bool) : RunEffects :=
  if status ≠ 201 ∧ prNumber > 0 then
    { emptyEffects with
      listedTags := true, releaseReq := some req,
      failedMsg := some "Failed to create release" }
  else
    { emptyEffects with
      listedTags := true, releaseReq := some req,
      outputs := some (newTag, pre),
      comments := [":label: " ++ (if pre then "Pre-release" else "Release")
        ++ " `" ++ tagStr newTag ++ "` created."] }

/-- The effects of `addLabel` (source lines 152-165). -/
def addLabelEffects (pr : PullRequest) : RunEffects :=
  match classify pr.headRef with
  | none => { emptyEffects with warnings := ["branch pattern not expected, skipping"] }
  | some bt => { emptyEffects with labelsAdded := [bt.label] }

/-- Source lines 67-146: the part of `run` after a pull request has been
extracted from the event.  The tag-history values (`fullReleases`,
`firstValid`, `lastTag`) that the source computes before branching on
`preRelease` are pure, so folding them into `resolveTag` is
behavior-preserving. -/
def runValidated (pr : PullRequest) (env : Env) : RunEffects :=
  if ¬(pr.baseRef = "master") ∧ ¬(pr.baseRef = "main") then emptyEffects
  else if pr.draft then emptyEffects
  else
    let preRelease := !pr.merged
    let branch := pr.headRef
    let prNumber := pr.number
    let pfx := if preRelease then "pre" else ""
    match classify branch with
    | none => { emptyEffects with warnings := ["branch pattern not expected, skipping"] }
    | some pattern =>
      if pattern.bump = Bump.chore then emptyEffects
      else
        let newTag := resolveTag env.tags branch (pfx ++ pattern.bump.toStr) preRelease
        let req : ReleaseRequest :=
          { tagName := newTag, name := pr.title, body := pr.body, draft := false,
            prerelease := preRelease,
            targetCommitish := if preRelease then pr.headRef else pr.baseRef }
        finishRelease env.releaseStatus prNumber req newTag preRelease

/-- The triggering event, as `Github.context` presents it to `run`. -/
inductive GithubEvent where
  | issueComment (action commentBody : String) (issueNumber : Int)
  | pullRequest (action : String) (number : Int) (pr : PullRequest)
  | other (name : String)

/-- Source lines 25-150: the whole `run`, one event against one environment. -/
def run (ev : GithubEvent) (env : Env) : RunEffects :=
  match ev with
  | .issueComment action body num =>
    if action = "created" ∧ strContains body "#tag" then
      runValidated (env.getPull num) env
    else { emptyEffects with warnings := ["PR not found"] }
  | .pullRequest action _num pr =>
    if action = "opened" then
      let e := addLabelEffects pr
      { e with comments := e.comments
          ++ ["Add a comment including `#tag` to create a release candidate tag."] }
    else if action = "closed" ∧ pr.merged then runValidated pr env
    else emptyEffects
  | .other _ => { emptyEffects with warnings := ["PR not found"] }

/-- The pull request a run of the given event would act on, if any. -/
def prOfEvent (ev : GithubEvent) (env : Env) : Option PullRequest :=
  match ev with
  | .issueComment _ _ n => some (env.getPull n)
  | .pullRequest _ _ pr => some pr
  | .other _ => none

/-- The spec's full-release filter, in the spec's own words: the name parses
as a valid semantic version, has no pre-release component, and its canonical
re-serialization equals the raw string. -/
def isFullReleaseSpec (t : String) : Bool :=
  match semverParse t with
  | none => false
  | some v => v.prerelease.isEmpty && decide (SemVer.format v = t)

/-- Concrete PR for the C4 end-to-end scenario: merged PR of branch
`release/v1` into `main`. -/
def c4pr : PullRequest := ⟨7, "t", "b", false, true, "release/v1", "main"⟩

/-- Environment with an empty tag list and a successful release sink. -/
def c4env : Env := ⟨fun _ => c4pr, [], 201⟩

/-- Concrete chore-branch PR for the C6 witness. -/
def c6pr : PullRequest := ⟨3, "t", "b", false, true, "chore/x", "master"⟩

/-- Concrete merged fix-branch PR for the C9 witness. -/
def c9pr : PullRequest := ⟨5, "t", "b", false, true, "fix/a", "master"⟩

/-- Environment whose release sink answers with status 500. -/
def c9env : Env := ⟨fun _ => c9pr, [], 500⟩

/-- Unmerged fix-branch PR behind the comment path for the C10 witness. -/
def c10pr : PullRequest := ⟨5, "t", "b", false, false, "fix/a", "master"⟩

/-- Environment returning `c10pr` from the PR lookup. -/
def c10env : Env := ⟨fun _ => c10pr, [], 201⟩

/-! ### Sanity checks of the embedding on concrete inputs -/

example : semverParse "1.2.3" = some ⟨1, 2, 3, [], []⟩ := by decide
example : semverParse "v1.2.3" = some ⟨1, 2, 3, [], []⟩ := by decide
example : semverParse "01.2.3" = none := by decide
example : semverParse "1.2.3-rc.1" = some ⟨1, 2, 3, [.str "rc", .num 1], []⟩ := by decide
example : semverParse "1.2.3+rc-x" = some ⟨1, 2, 3, [], ["rc-x"]⟩ := by decide
example : semverParse "bogus" = none := by decide
example : semverValid "1.2.3+rc-x" = some "1.2.3" := by decide
example : semverValid "2.0.0-rc.1" = some "2.0.0-rc.1" := by decide
example : semverPrerelease "2.0.0-rc.1" = some [.str "rc", .num 1] := by decide
example : semverPrerelease "1.2.3" = none := by decide
example : semverInc "1.2.3" "major" none = some "2.0.0" := by decide
example : semverInc "0.0.0" "major" none = some "1.0.0" := by decide
example : semverInc "1.2.3" "preminor" (some "rc-feature-x") = some "1.3.0-rc-feature-x.0" := by
  decide
example : semverInc "1.3.0-rc-feature-x.0" "prerelease" none = some "1.3.0-rc-feature-x.1" := by
  decide
example : semverInc "1.2.3+rc-feature-x" "prerelease" none = some "1.2.4-0" := by decide
example : semverInc "1.2.3" "chore" none = none := by decide
example : semverInc "bogus" "major" none = none := by decide
example : semverInc "0.0.0" "prepatch" (some "rc-fix-bug") = some "0.0.1-rc-fix-bug.0" := by decide
example : lastTagOf ["1.2.3", "2.0.0-rc.1", "bogus"] = "1.2.3" := by decide
example : lastTagOf [] = "0.0.0" := by decide
example : lastTagOf ["v1.2.3"] = "0.0.0" := by decide
example : resolveTag ["1.2.3"] "feature/x" "preminor" true = some "1.3.0-rc-feature-x.0" := by
  decide
example : resolveTag ["1.3.0-rc-feature-x.0", "1.2.3"] "feature/x" "preminor" true
    = some "1.3.0-rc-feature-x.1" := by decide
example : resolveTag [] "release/v1" "major" false = some "1.0.0" := by decide
example : resolveTag ["1.0.0"] "fix/bug" "prepatch" true = some "1.0.1-rc-fix-bug.0" := by decide
example : classify "fix/a" = some ⟨"fix/", .patch, "fix"⟩ := by decide
example : classify "main" = none := by decide

/-! ### Helper lemmas -/

theorem charsStartWith_nil (l : List Char) : charsStartWith l [] = true := by
  cases l <;> rfl

/-- Two literals that are prefixes of the same string are comparable:
one of them is a prefix of the other. -/
theorem charsStartWith_disjoint : ∀ l n1 n2 : List Char,
    charsStartWith l n1 = true → charsStartWith l n2 = true →
    charsStartWith n1 n2 = true ∨ charsStartWith n2 n1 = true := by
  intro l
  induction l with
  | nil =>
    intro n1 n2 h1 _h2
    cases n1 with
    | nil => exact Or.inr (charsStartWith_nil n2)
    | cons b t => simp [charsStartWith] at h1
  | cons a as ih =>
    intro n1 n2 h1 h2
    cases n1 with
    | nil => exact Or.inr (charsStartWith_nil n2)
    | cons b1 t1 =>
      cases n2 with
      | nil => exact Or.inl (charsStartWith_nil (b1 :: t1))
      | cons b2 t2 =>
        simp only [charsStartWith, Bool.and_eq_true, beq_iff_eq] at h1 h2
        obtain ⟨hb1, ht1⟩ := h1
        obtain ⟨hb2, ht2⟩ := h2
        subst hb1
        subst hb2
        rcases ih t1 t2 ht1 ht2 with h | h
        · exact Or.inl (by simp [charsStartWith, h])
        · exact Or.inr (by simp [charsStartWith, h])

/-- Finding with a predicate implied by the filter gives the filter's head. -/
theorem find?_filter_of_imp {α : Type} (p q : α → Bool)
    (h : ∀ x, q x = true → p x = true) (l : List α) :
    (l.filter q).find? p = l.find? q := by
  induction l with
  | nil => rfl
  | cons a as ih =>
    cases hq : q a with
    | false => simp [List.filter_cons, hq, List.find?, ih]
    | true => simp [List.filter_cons, hq, List.find?, h a hq, ih]

/-- The source's full-release filter equals the spec's characterization. -/
theorem fullReleasePred_eq (t : String) :
    ((semverPrerelease t).isNone && decide (semverValid t = some t)) = isFullReleaseSpec t := by
  unfold semverPrerelease semverValid isFullReleaseSpec
  cases h : semverParse t with
  | none => simp
  | some v =>
    by_cases hp : v.prerelease = []
    · simp [hp]
    · simp [hp]

/-- The baseline is the first tag satisfying the spec's full-release
predicate, defaulting to `0.0.0`. -/
theorem lastTagOf_eq_spec (tags : List String) :
    lastTagOf tags = (tags.find? isFullReleaseSpec).getD "0.0.0" := by
  have himp : ∀ x, ((semverPrerelease x).isNone && decide (semverValid x = some x)) = true →
      ((semverValid x).isSome) = true := by
    intro x hx
    rw [Bool.and_eq_true] at hx
    have hv : semverValid x = some x := of_decide_eq_true hx.2
    rw [hv]
    rfl
  have h1 : (fullReleases tags).find? (fun t => (semverValid t).isSome)
      = tags.find? isFullReleaseSpec := by
    unfold fullReleases
    rw [find?_filter_of_imp _ _ himp]
    rw [show (fun t => (semverPrerelease t).isNone && decide (semverValid t = some t))
      = isFullReleaseSpec from funext fullReleasePred_eq]
  unfold lastTagOf
  rw [h1]
  cases tags.find? isFullReleaseSpec <;> rfl

/-- The baseline always parses, and parses with no pre-release component. -/
theorem lastTagOf_parses (tags : List String) :
    ∃ c, semverParse (lastTagOf tags) = some c ∧ c.prerelease = [] := by
  unfold lastTagOf
  cases hf : (fullReleases tags).find? (fun t => (semverValid t).isSome) with
  | none => exact ⟨⟨0, 0, 0, [], []⟩, by decide, rfl⟩
  | some t =>
    have hmem : t ∈ fullReleases tags := List.mem_of_find?_eq_some hf
    unfold fullReleases at hmem
    have hpred := List.of_mem_filter hmem
    simp only [Bool.and_eq_true] at hpred
    have hv : semverValid t = some t := of_decide_eq_true hpred.2
    have hpre := hpred.1
    unfold semverValid at hv
    cases hparse : semverParse t with
    | none => rw [hparse] at hv; simp at hv
    | some c =>
      refine ⟨c, rfl, ?_⟩
      unfold semverPrerelease at hpre
      rw [hparse] at hpre
      by_cases hp : c.prerelease = []
      · exact hp
      · simp [hp] at hpre

/-- `addLabel` never lists tags, creates a release, fails or sets outputs. -/
theorem addLabelEffects_quiet (pr : PullRequest) :
    (addLabelEffects pr).listedTags = false ∧ (addLabelEffects pr).releaseReq = none ∧
    (addLabelEffects pr).failedMsg = none ∧ (addLabelEffects pr).outputs = none := by
  unfold addLabelEffects
  cases classify pr.headRef <;> simp [emptyEffects]

/-! ### Claims -/

/-- Claim C1: for every list of tag names, the full-release baseline is the
first tag in the provided order whose name parses as a valid semantic
version, has no pre-release component, and whose canonical re-serialization
equals the raw tag string; if no such tag exists the baseline is the literal
version `0.0.0`.  In particular, for the input list
`["1.2.3", "2.0.0-rc.1", "bogus"]` the baseline is `"1.2.3"`. -/
theorem claimC1 :
    (∀ tags : List String, lastTagOf tags = (tags.find? isFullReleaseSpec).getD "0.0.0") ∧
    lastTagOf ["1.2.3", "2.0.0-rc.1", "bogus"] = "1.2.3" :=
  ⟨lastTagOf_eq_spec, by decide⟩

/-- Claim C5: classification returns the first rule of the fixed ordered
table whose anchored pattern matches: branches matching `^fix/.*` yield bump
kind patch and label "fix", `^feature/.*` yield minor and "feature",
`^release/.*` yield major and "release", and `^chore/.*` yield chore and
"chore". -/
theorem claimC5 : ∀ b : String,
    (strStarts b "fix/" = true → classify b = some ⟨"fix/", Bump.patch, "fix"⟩) ∧
    (strStarts b "feature/" = true → classify b = some ⟨"feature/", Bump.minor, "feature"⟩) ∧
    (strStarts b "release/" = true → classify b = some ⟨"release/", Bump.major, "release"⟩) ∧
    (strStarts b "chore/" = true → classify b = some ⟨"chore/", Bump.chore, "chore"⟩) := by
  intro b
  have notBoth : ∀ p1 p2 : String,
      charsStartWith p1.data p2.data = false → charsStartWith p2.data p1.data = false →
      strStarts b p1 = true → strStarts b p2 = false := by
    intro p1 p2 h12 h21 hs
    by_contra hc
    rw [Bool.not_eq_false] at hc
    unfold strStarts at hs hc
    rcases charsStartWith_disjoint b.data p1.data p2.data hs hc with h | h
    · rw [h12] at h
      exact Bool.false_ne_true h
    · rw [h21] at h
      exact Bool.false_ne_true h
  refine ⟨fun h => ?_, fun h => ?_, fun h => ?_, fun h => ?_⟩
  · simp [classify, branchTypes, List.find?, h]
  · have h1 : strStarts b "fix/" = false := notBoth "feature/" "fix/" (by decide) (by decide) h
    simp [classify, branchTypes, List.find?, h, h1]
  · have h1 : strStarts b "fix/" = false := notBoth "release/" "fix/" (by decide) (by decide) h
    have h2 : strStarts b "feature/" = false :=
      notBoth "release/" "feature/" (by decide) (by decide) h
    simp [classify, branchTypes, List.find?, h, h1, h2]
  · have h1 : strStarts b "fix/" = false := notBoth "chore/" "fix/" (by decide) (by decide) h
    have h2 : strStarts b "feature/" = false :=
      notBoth "chore/" "feature/" (by decide) (by decide) h
    have h3 : strStarts b "release/" = false :=
      notBoth "chore/" "release/" (by decide) (by decide) h
    simp [classify, branchTypes, List.find?, h, h1, h2, h3]

/-- Witness for C5 at the four concrete branch names. -/
theorem claimC5_witness :
    classify "fix/a" = some ⟨"fix/", Bump.patch, "fix"⟩ ∧
    classify "feature/a" = some ⟨"feature/", Bump.minor, "feature"⟩ ∧
    classify "release/a" = some ⟨"release/", Bump.major, "release"⟩ ∧
    classify "chore/a" = some ⟨"chore/", Bump.chore, "chore"⟩ :=
  ⟨(claimC5 "fix/a").1 (by decide), (claimC5 "feature/a").2.1 (by decide),
   (claimC5 "release/a").2.2.1 (by decide), (claimC5 "chore/a").2.2.2 (by decide)⟩

/-- Claim C7: when no pattern matches, classification yields the `none`
sentinel (not an exception); the run then skips — no release request, no
failure, no tag listing — and when the PR otherwise qualifies the skip
carries exactly the "branch pattern not expected" warning. -/
theorem claimC7 : ∀ b : String,
    strStarts b "fix/" = false → strStarts b "feature/" = false →
    strStarts b "release/" = false → strStarts b "chore/" = false →
    classify b = none ∧
    (∀ (pr : PullRequest) (env : Env), pr.headRef = b →
      (runValidated pr env).releaseReq = none ∧ (runValidated pr env).failedMsg = none ∧
      (runValidated pr env).listedTags = false) ∧
    (∀ (pr : PullRequest) (env : Env), pr.headRef = b →
      (pr.baseRef = "master" ∨ pr.baseRef = "main") → pr.draft = false →
      runValidated pr env
        = { emptyEffects with warnings := ["branch pattern not expected, skipping"] }) := by
  intro b h1 h2 h3 h4
  have hcl : classify b = none := by
    simp [classify, branchTypes, List.find?, h1, h2, h3, h4]
  refine ⟨hcl, ?_, ?_⟩
  · intro pr env hpr
    unfold runValidated
    by_cases hg : ¬(pr.baseRef = "master") ∧ ¬(pr.baseRef = "main")
    · rw [if_pos hg]
      exact ⟨rfl, rfl, rfl⟩
    · rw [if_neg hg]
      by_cases hd : pr.draft
      · simp [hd, emptyEffects]
      · simp only [hd, Bool.false_eq_true, if_false]
        rw [hpr, hcl]
        exact ⟨rfl, rfl, rfl⟩
  · intro pr env hpr hbase hd
    unfold runValidated
    have hg : ¬(¬(pr.baseRef = "master") ∧ ¬(pr.baseRef = "main")) := by tauto
    rw [if_neg hg]
    simp only [hd, Bool.false_eq_true, if_false]
    rw [hpr, hcl]

/-- Witness for C7 on branch `main` with an otherwise qualifying PR. -/
theorem claimC7_witness :
    classify "main" = none ∧
    runValidated ⟨1, "t", "b", false, true, "main", "master"⟩
        ⟨fun _ => ⟨1, "t", "b", false, true, "main", "master"⟩, [], 201⟩
      = { emptyEffects with warnings := ["branch pattern not expected, skipping"] } :=
  have h := claimC7 "main" (by decide) (by decide) (by decide) (by decide)
  ⟨h.1, h.2.2 ⟨1, "t", "b", false, true, "main", "master"⟩
    ⟨fun _ => ⟨1, "t", "b", false, true, "main", "master"⟩, [], 201⟩ rfl (Or.inl rfl) rfl⟩

/-- Claim C8: resolution is deterministic — identical ordered tag list,
branch, bump string and pre-release flag give the same resolved tag — yet
order-sensitive: two lists with the same versions in different orders can
yield different resolved tags. -/
theorem claimC8 :
    (∀ (tags : List String) (branch bumpStr : String) (pre : Bool),
      resolveTag tags branch bumpStr pre = resolveTag tags branch bumpStr pre) ∧
    ∃ l1 l2 : List String, l1.Perm l2 ∧
      resolveTag l1 "fix/a" "patch" false ≠ resolveTag l2 "fix/a" "patch" false :=
  ⟨fun _ _ _ _ => rfl,
   ["1.0.0", "2.0.0"], ["2.0.0", "1.0.0"], List.Perm.swap "2.0.0" "1.0.0" [], by decide⟩

/-- A `prerelease` increment of a version with a non-empty pre-release list
only bumps the numeric suffix. -/
theorem incRel_prerelease_of_ne (c : SemVer) (h : c.prerelease ≠ []) :
    c.incRel .prerelease none = { c with prerelease := incLastNumeric c.prerelease } := by
  simp only [SemVer.incRel, SemVer.incPreWith]
  rw [if_neg h]
  simp only [SemVer.preStep]
  rw [if_neg h]

/-- Counterexample to C2 as stated: the tag `1.2.3+rc-feature-x` contains
the RC identifier `rc-feature-x` of branch `feature/x`, so it is the first
matching tag, yet its `prerelease` increment moves the core version from
`1.2.3` to `1.2.4` — the core of the matched tag does not stay unchanged
when the matched tag has an empty pre-release component (here, build
metadata only). -/
theorem claimC2_counterexample :
    resolveTag ["1.2.3+rc-feature-x"] "feature/x" "preminor" true = some "1.2.4-0" ∧
    List.filter (fun t => strContains t (rcNameOf "feature/x")) ["1.2.3+rc-feature-x"]
      = ["1.2.3+rc-feature-x"] ∧
    semverParse "1.2.3+rc-feature-x" = some ⟨1, 2, 3, [], ["rc-feature-x"]⟩ ∧
    semverParse "1.2.4-0" = some ⟨1, 2, 4, [PreId.num 0], []⟩ := by
  decide

/-- Claim C2 (amended): for every pre-release resolution where the tag list
contains a tag whose name includes the branch's RC identifier, the resolved
tag is the semver `prerelease` increment of the first such matching tag in
input order, and neither the bump string nor the baseline affects the
result; provided that first matching tag parses with a non-empty
pre-release component, the core major.minor.patch of that tag stays
unchanged and its pre-release list merely gets its last numeric counter
incremented (or a `0` counter appended when it has none). -/
theorem claimC2 : ∀ (tags : List String) (branch bumpStr r : String)
    (rs : List String) (c : SemVer),
    tags.filter (fun t => strContains t (rcNameOf branch)) = r :: rs →
    semverParse r = some c →
    c.prerelease ≠ [] →
    resolveTag tags branch bumpStr true = semverInc r "prerelease" none ∧
    (∀ bumpStr2 : String,
      resolveTag tags branch bumpStr2 true = resolveTag tags branch bumpStr true) ∧
    ∃ v, resolveTag tags branch bumpStr true = some (SemVer.format v) ∧
      v.major = c.major ∧ v.minor = c.minor ∧ v.patch = c.patch ∧
      v.prerelease = incLastNumeric c.prerelease := by
  intro tags branch bumpStr r rs c hfilter hparse hpre
  have hres : resolveTag tags branch bumpStr true = semverInc r "prerelease" none := by
    unfold resolveTag
    rw [if_pos rfl, hfilter]
  have hrel : Rel.ofString "prerelease" = some Rel.prerelease := by decide
  have hinc : semverInc r "prerelease" none
      = some (SemVer.format { c with prerelease := incLastNumeric c.prerelease }) := by
    simp only [semverInc, hparse, hrel]
    rw [incRel_prerelease_of_ne c hpre]
  refine ⟨hres, fun bumpStr2 => ?_, ?_⟩
  · rw [hres]
    unfold resolveTag
    rw [if_pos rfl, hfilter]
  · exact ⟨{ c with prerelease := incLastNumeric c.prerelease },
      by rw [hres, hinc], rfl, rfl, rfl, rfl⟩

/-- Witness for C2 at a concrete repeat-RC request. -/
theorem claimC2_witness :
    resolveTag ["1.3.0-rc-feature-x.0"] "feature/x" "preminor" true
      = semverInc "1.3.0-rc-feature-x.0" "prerelease" none :=
  (claimC2 ["1.3.0-rc-feature-x.0"] "feature/x" "preminor" "1.3.0-rc-feature-x.0" []
    ⟨1, 3, 0, [.str "rc-feature-x", .num 0], []⟩ (by decide) (by decide) (by decide)).1

/-- Claim C3: a pre-release resolution with no matching RC tag increments
the baseline by `pre` + bump kind with the identifier `rc-` + the branch
name with its first path separator replaced by a hyphen; the resulting
version carries the pre-release list `[rcName, 0]`, and for bump kind minor
its core is the minor-bumped baseline.  For branch `feature/x` with baseline
`1.2.3` this yields `1.3.0-rc-feature-x.0`, whose pre-release identifier
contains `rc-feature-x`. -/
theorem claimC3 : ∀ (tags : List String) (branch : String) (k : Bump),
    k ≠ Bump.chore →
    tags.filter (fun t => strContains t (rcNameOf branch)) = [] →
    resolveTag tags branch ("pre" ++ k.toStr) true
      = semverInc (lastTagOf tags) ("pre" ++ k.toStr) (some (rcNameOf branch)) ∧
    (∃ c v, semverParse (lastTagOf tags) = some c ∧
      resolveTag tags branch ("pre" ++ k.toStr) true = some (SemVer.format v) ∧
      v.prerelease = [PreId.str (rcNameOf branch), PreId.num 0] ∧
      (k = Bump.minor → v.major = c.major ∧ v.minor = c.minor + 1 ∧ v.patch = 0)) ∧
    resolveTag ["1.2.3"] "feature/x" "preminor" true = some "1.3.0-rc-feature-x.0" ∧
    strContains "1.3.0-rc-feature-x.0" "rc-feature-x" = true := by
  intro tags branch k hk hfilter
  have hres : resolveTag tags branch ("pre" ++ k.toStr) true
      = semverInc (lastTagOf tags) ("pre" ++ k.toStr) (some (rcNameOf branch)) := by
    unfold resolveTag
    rw [if_pos rfl, hfilter]
  refine ⟨hres, ?_, by decide, by decide⟩
  obtain ⟨c, hc, _hcp⟩ := lastTagOf_parses tags
  cases k with
  | chore => exact absurd rfl hk
  | patch =>
    have hrel : Rel.ofString ("pre" ++ Bump.patch.toStr) = some Rel.prepatch := by decide
    refine ⟨c, SemVer.incRel c Rel.prepatch (some (rcNameOf branch)), hc, ?_, rfl, ?_⟩
    · rw [hres]
      unfold semverInc
      rw [hc, hrel]
    · intro h
      exact absurd h (by decide)
  | minor =>
    have hrel : Rel.ofString ("pre" ++ Bump.minor.toStr) = some Rel.preminor := by decide
    refine ⟨c, SemVer.incRel c Rel.preminor (some (rcNameOf branch)), hc, ?_, rfl,
      fun _ => ⟨rfl, rfl, rfl⟩⟩
    rw [hres]
    unfold semverInc
    rw [hc, hrel]
  | major =>
    have hrel : Rel.ofString ("pre" ++ Bump.major.toStr) = some Rel.premajor := by decide
    refine ⟨c, SemVer.incRel c Rel.premajor (some (rcNameOf branch)), hc, ?_, rfl, ?_⟩
    · rw [hres]
      unfold semverInc
      rw [hc, hrel]
    · intro h
      exact absurd h (by decide)

/-- Witness for C3 at branch `feature/x` with baseline `1.2.3`. -/
theorem claimC3_witness :
    resolveTag ["1.2.3"] "feature/x" ("pre" ++ Bump.minor.toStr) true
      = semverInc (lastTagOf ["1.2.3"]) ("pre" ++ Bump.minor.toStr)
          (some (rcNameOf "feature/x")) :=
  (claimC3 ["1.2.3"] "feature/x" Bump.minor (by decide) (by decide)).1

/-- Claim C4: a final (non-pre-release) resolution is the standard semver
increment of the baseline by the bump kind, and the result carries no
pre-release suffix; bump kind major on baseline `1.2.3` yields exactly
`2.0.0`, and an empty tag list with a `release/*` branch and a merged PR
yields the release `1.0.0`. -/
theorem claimC4 : ∀ (tags : List String) (branch : String) (k : Bump),
    k ≠ Bump.chore →
    (resolveTag tags branch k.toStr false = semverInc (lastTagOf tags) k.toStr none ∧
     ∃ v, resolveTag tags branch k.toStr false = some (SemVer.format v) ∧
       v.prerelease = []) ∧
    semverInc "1.2.3" "major" none = some "2.0.0" ∧
    (run (.pullRequest "closed" 7 c4pr) c4env).releaseReq
      = some ⟨some "1.0.0", "t", "b", false, false, "main"⟩ ∧
    (run (.pullRequest "closed" 7 c4pr) c4env).outputs = some (some "1.0.0", false) := by
  intro tags branch k hk
  refine ⟨⟨rfl, ?_⟩, by decide, by decide, by decide⟩
  obtain ⟨c, hc, _hcp⟩ := lastTagOf_parses tags
  cases k with
  | chore => exact absurd rfl hk
  | patch =>
    have hrel : Rel.ofString Bump.patch.toStr = some Rel.patch := by decide
    refine ⟨SemVer.incRel c Rel.patch none, ?_, rfl⟩
    show semverInc (lastTagOf tags) Bump.patch.toStr none = _
    unfold semverInc
    rw [hc, hrel]
  | minor =>
    have hrel : Rel.ofString Bump.minor.toStr = some Rel.minor := by decide
    refine ⟨SemVer.incRel c Rel.minor none, ?_, rfl⟩
    show semverInc (lastTagOf tags) Bump.minor.toStr none = _
    unfold semverInc
    rw [hc, hrel]
  | major =>
    have hrel : Rel.ofString Bump.major.toStr = some Rel.major := by decide
    refine ⟨SemVer.incRel c Rel.major none, ?_, rfl⟩
    show semverInc (lastTagOf tags) Bump.major.toStr none = _
    unfold semverInc
    rw [hc, hrel]

/-- Witness for C4 with bump kind major on an empty tag list. -/
theorem claimC4_witness :
    resolveTag [] "release/v1" Bump.major.toStr false
      = semverInc (lastTagOf []) Bump.major.toStr none :=
  ((claimC4 [] "release/v1" Bump.major (by decide)).1).1

/-- A chore classification makes `runValidated` a complete no-op. -/
theorem runValidated_chore (pr : PullRequest) (env : Env)
    (h : (classify pr.headRef).map BranchType.bump = some Bump.chore) :
    runValidated pr env = emptyEffects := by
  unfold runValidated
  by_cases hg : ¬(pr.baseRef = "master") ∧ ¬(pr.baseRef = "main")
  · rw [if_pos hg]
  · rw [if_neg hg]
    by_cases hd : pr.draft
    · simp [hd]
    · simp only [hd, Bool.false_eq_true, if_false]
      cases hcl : classify pr.headRef with
      | none => rw [hcl] at h; simp at h
      | some bt =>
        rw [hcl] at h
        simp only [Option.map_some', Option.some.injEq] at h
        simp only [hcl]
        rw [if_pos h]

/-- Claim C6: a branch classified with bump kind chore short-circuits the
run before version resolution: no tag listing, no release request, no
failure, no outputs, whatever the other inputs — a successful skip. -/
theorem claimC6 :
    (∀ (pr : PullRequest) (env : Env),
      (classify pr.headRef).map BranchType.bump = some Bump.chore →
      runValidated pr env = emptyEffects) ∧
    (∀ (ev : GithubEvent) (env : Env),
      (∀ pr, prOfEvent ev env = some pr →
        (classify pr.headRef).map BranchType.bump = some Bump.chore) →
      (run ev env).listedTags = false ∧ (run ev env).releaseReq = none ∧
      (run ev env).failedMsg = none ∧ (run ev env).outputs = none) := by
  refine ⟨runValidated_chore, ?_⟩
  intro ev env h
  cases ev with
  | issueComment action body num =>
    by_cases hc : action = "created" ∧ strContains body "#tag" = true
    · have hrv := runValidated_chore (env.getPull num) env (h (env.getPull num) rfl)
      simp [run, hc, hrv, emptyEffects]
    · simp [run, hc, emptyEffects]
  | pullRequest action num pr =>
    by_cases ho : action = "opened"
    · have hq := addLabelEffects_quiet pr
      simp only [run, ho, if_pos, if_true]
      exact ⟨hq.1, hq.2.1, hq.2.2.1, hq.2.2.2⟩
    · by_cases hcm : action = "closed" ∧ pr.merged = true
      · have hrv := runValidated_chore pr env (h pr rfl)
        simp [run, ho, hcm, hrv, emptyEffects]
      · simp [run, ho, hcm, emptyEffects]
  | other name => simp [run, emptyEffects]

/-- Witness for C6 at a merged chore-branch PR. -/
theorem claimC6_witness :
    runValidated c6pr ⟨fun _ => c6pr, [], 201⟩ = emptyEffects :=
  claimC6.1 c6pr ⟨fun _ => c6pr, [], 201⟩ (by decide)

/-- Claim C9: after a non-success release status, the run fails (sets the
failure message) and produces no outputs and no success comment when the PR
number is positive; a non-positive PR number never makes the run fail. -/
theorem claimC9 : ∀ (pr : PullRequest) (env : Env) (bt : BranchType),
    (pr.baseRef = "master" ∨ pr.baseRef = "main") → pr.draft = false →
    classify pr.headRef = some bt → bt.bump ≠ Bump.chore →
    ((env.releaseStatus ≠ 201 ∧ pr.number > 0) →
      (runValidated pr env).failedMsg = some "Failed to create release" ∧
      (runValidated pr env).outputs = none ∧ (runValidated pr env).comments = []) ∧
    (pr.number ≤ 0 → (runValidated pr env).failedMsg = none) := by
  intro pr env bt hbase hd hcl hb
  have hg : ¬(¬(pr.baseRef = "master") ∧ ¬(pr.baseRef = "main")) := by tauto
  have hrv : runValidated pr env
      = finishRelease env.releaseStatus pr.number
          { tagName := resolveTag env.tags pr.headRef
              ((if !pr.merged then "pre" else "") ++ bt.bump.toStr) (!pr.merged),
            name := pr.title, body := pr.body, draft := false,
            prerelease := !pr.merged,
            targetCommitish := if !pr.merged then pr.headRef else pr.baseRef }
          (resolveTag env.tags pr.headRef
            ((if !pr.merged then "pre" else "") ++ bt.bump.toStr) (!pr.merged))
          (!pr.merged) := by
    unfold runValidated
    rw [if_neg hg]
    simp only [hd, Bool.false_eq_true, if_false]
    simp only [hcl]
    rw [if_neg hb]
  constructor
  · intro hs
    rw [hrv]
    unfold finishRelease
    rw [if_pos hs]
    exact ⟨rfl, rfl, rfl⟩
  · intro hn
    rw [hrv]
    unfold finishRelease
    rw [if_neg (by omega : ¬(env.releaseStatus ≠ 201 ∧ pr.number > 0))]
    rfl

/-- Witness for C9: status 500 with PR number 5 fails the run. -/
theorem claimC9_witness :
    (runValidated c9pr c9env).failedMsg = some "Failed to create release" ∧
    (runValidated c9pr c9env).outputs = none :=
  have h := claimC9 c9pr c9env ⟨"fix/", Bump.patch, "fix"⟩ (Or.inl rfl) rfl
    (by decide) (by decide)
  ⟨(h.1 ⟨by decide, by decide⟩).1, (h.1 ⟨by decide, by decide⟩).2.1⟩

/-- Any release request the validated run emits carries the negation of the
PR's merged flag as its pre-release bit. -/
theorem releaseReq_prerelease (pr : PullRequest) (env : Env) (req : ReleaseRequest)
    (h : (runValidated pr env).releaseReq = some req) :
    req.prerelease = !pr.merged := by
  unfold runValidated at h
  by_cases hg : ¬(pr.baseRef = "master") ∧ ¬(pr.baseRef = "main")
  · rw [if_pos hg] at h
    simp [emptyEffects] at h
  · rw [if_neg hg] at h
    by_cases hd : pr.draft
    · simp [hd, emptyEffects] at h
    · simp only [hd, Bool.false_eq_true, if_false] at h
      cases hcl : classify pr.headRef with
      | none =>
        rw [hcl] at h
        simp [emptyEffects] at h
      | some bt =>
        simp only [hcl] at h
        by_cases hb : bt.bump = Bump.chore
        · rw [if_pos hb] at h
          simp [emptyEffects] at h
        · rw [if_neg hb] at h
          unfold finishRelease at h
          by_cases hs : env.releaseStatus ≠ 201 ∧ pr.number > 0
          · rw [if_pos hs] at h
            simp only [Option.some.injEq] at h
            rw [← h]
          · rw [if_neg hs] at h
            simp only [Option.some.injEq] at h
            rw [← h]

/-- Claim C10: the pre-release flag of every emitted release request is the
negation of the PR's merged flag; the pull_request lifecycle path (which
proceeds only for closed-and-merged PRs) only ever emits final releases;
a pre-release can only come from the comment-triggered path, and only when
the looked-up PR is unmerged; other events emit nothing. -/
theorem claimC10 :
    (∀ (pr : PullRequest) (env : Env) (req : ReleaseRequest),
      (runValidated pr env).releaseReq = some req → req.prerelease = !pr.merged) ∧
    (∀ (action : String) (n : Int) (pr : PullRequest) (env : Env) (req : ReleaseRequest),
      (run (.pullRequest action n pr) env).releaseReq = some req →
      req.prerelease = false) ∧
    (∀ (action body : String) (n : Int) (env : Env) (req : ReleaseRequest),
      (run (.issueComment action body n) env).releaseReq = some req →
      req.prerelease = true → (env.getPull n).merged = false) ∧
    (∀ (name : String) (env : Env), (run (.other name) env).releaseReq = none) := by
  refine ⟨releaseReq_prerelease, ?_, ?_, fun _ _ => rfl⟩
  · intro action n pr env req h
    simp only [run] at h
    by_cases ho : action = "opened"
    · rw [if_pos ho] at h
      have hq := (addLabelEffects_quiet pr).2.1
      simp only [] at h
      rw [hq] at h
      exact absurd h (by simp)
    · rw [if_neg ho] at h
      by_cases hcm : action = "closed" ∧ pr.merged = true
      · rw [if_pos hcm] at h
        have := releaseReq_prerelease pr env req h
        rw [this, hcm.2]
        rfl
      · rw [if_neg hcm] at h
        exact absurd h (by simp [emptyEffects])
  · intro action body n env req h hpre
    simp only [run] at h
    by_cases hc : action = "created" ∧ strContains body "#tag" = true
    · rw [if_pos hc] at h
      have := releaseReq_prerelease (env.getPull n) env req h
      rw [hpre] at this
      cases hm : (env.getPull n).merged
      · rfl
      · rw [hm] at this
        exact absurd this.symm (by simp)
    · rw [if_neg hc] at h
      exact absurd h (by simp [emptyEffects])

/-- Witness for C10: a pre-release emitted by the comment path comes from an
unmerged PR. -/
theorem claimC10_witness : (c10env.getPull 5).merged = false :=
  claimC10.2.2.1 "created" "please #tag" 5 c10env
    ⟨some "0.0.1-rc-fix-a.0", "t", "b", false, true, "fix/a"⟩ (by decide) (by decide)

end Tagging
